import Mathlib

/-!
Verification of `classifiers_evaluation.py`: a shallow embedding in Lean 4 of
the ellipse-geometry function, the loss-tracking callback, the training-curve
trace, and the two-panel Gaussian-comparison figure builder, with theorems
settling the specified properties. Machine floats are modelled as real
numbers; plotly traces are modelled as inert data structures.
-/

noncomputable section

open Real

/-- A 2×2 real matrix, entries row-major: rows `[[m00, m01], [m10, m11]]`.
Models the numpy 2×2 covariance arrays passed to `get_ellipse`. -/
structure Mat2 where
  m00 : ℝ
  m01 : ℝ
  m10 : ℝ
  m11 : ℝ

/-- Discriminant of the characteristic polynomial of a symmetric 2×2 matrix,
read from the lower triangle as `np.linalg.eigvalsh` does by default. -/
def disc (c : Mat2) : ℝ := (c.m00 - c.m11) ^ 2 + 4 * c.m10 ^ 2

/-- Larger output of `np.linalg.eigvalsh(cov)[::-1]`: the eigenvalues of a
symmetric 2×2 matrix in descending order, first component (source line 75). -/
def l1Of (c : Mat2) : ℝ := ((c.m00 + c.m11) + Real.sqrt (disc c)) / 2

/-- Smaller output of `np.linalg.eigvalsh(cov)[::-1]` (source line 75). -/
def l2Of (c : Mat2) : ℝ := ((c.m00 + c.m11) - Real.sqrt (disc c)) / 2

/-- Characteristic polynomial `det (c - x I)` of a 2×2 matrix; its roots are
the eigenvalues of `c`. -/
def charPoly (c : Mat2) (x : ℝ) : ℝ := (c.m00 - x) * (c.m11 - x) - c.m01 * c.m10

/-- `math.atan2 y x`: the angle of the point `(x, y)`, in `(-π, π]`. -/
def atan2 (y x : ℝ) : ℝ :=
  if 0 < x then Real.arctan (y / x)
  else if x < 0 then
    (if 0 ≤ y then Real.arctan (y / x) + Real.pi else Real.arctan (y / x) - Real.pi)
  else
    (if 0 < y then Real.pi / 2 else if y < 0 then -(Real.pi / 2) else 0)

/-- The rotation angle computed on source line 76:
`atan2(l1 - cov[0,0], cov[0,1]) if cov[0,1] != 0 else (pi/2 if cov[0,0] < cov[1,1] else 0)`. -/
def thetaOf (c : Mat2) : ℝ :=
  if c.m01 ≠ 0 then atan2 (l1Of c - c.m00) c.m01
  else if c.m00 < c.m11 then Real.pi / 2 else 0

/-- The i-th of `np.linspace(0, 2*pi, 100)` (source line 77): 100 points from
`0` to `2π`, endpoints included, step `2π/99`. -/
def linspace100 (i : ℕ) : ℝ := 2 * Real.pi * i / 99

/-- One point of the ellipse (source lines 78–81): the mean plus the rotated
axis-scaled point at parameter `t`. -/
def ellipsePoint (mu : ℝ × ℝ) (c : Mat2) (t : ℝ) : ℝ × ℝ :=
  (mu.1 + (l1Of c * Real.cos (thetaOf c) * Real.cos t
            - l2Of c * Real.sin (thetaOf c) * Real.sin t),
   mu.2 + (l1Of c * Real.sin (thetaOf c) * Real.cos t
            + l2Of c * Real.cos (thetaOf c) * Real.sin t))

/-- `get_ellipse(mu, cov)` (source lines 62–81): the 100 sampled points of the
ellipse trace returned to plotly. -/
def get_ellipse (mu : ℝ × ℝ) (c : Mat2) : List (ℝ × ℝ) :=
  (List.range 100).map (fun i => ellipsePoint mu c (linspace100 i))

/-- `np.diag(vars)` for a 2-vector (source line 129): the diagonal 2×2 matrix
with zero off-diagonal entries. -/
def diagM (v : ℝ × ℝ) : Mat2 := ⟨v.1, 0, 0, v.2⟩

/-- The closure `loss_callback` of `run_perceptron` (source lines 42–44): given
the loss function of the estimator and the full training set `(X, y)` captured
by the closure, it ignores the per-sample arguments `xi`, `yi` (the `_, __` of
the Python signature) and appends the estimator's loss over the whole set to
the accumulated trace. -/
def loss_callback {E A B G D : Type} (lossFn : E → A → B → ℝ) (X : A) (y : B)
    (losses : List ℝ) (est : E) (xi : G) (yi : D) : List ℝ :=
  losses ++ [lossFn est X y]

/-- A sequence of invocations of `loss_callback` by the external training loop:
one `(estimator, sample, label)` triple per invocation, folded over the
accumulated trace. -/
def runCallbacks {E A B G D : Type} (lossFn : E → A → B → ℝ) (X : A) (y : B) :
    List (E × G × D) → List ℝ → List ℝ
  | [], acc => acc
  | (e, xi, yi) :: rest, acc =>
      runCallbacks lossFn X y rest (loss_callback lossFn X y acc e xi yi)

/-- A plotly `go.Scatter` line trace as built on source line 51:
`go.Scatter(x=..., y=..., mode='lines', name=...)`. -/
structure ScatterLine where
  xs : List ℝ
  ys : List ℝ
  mode : String
  name : String

/-- The training-curve trace of `run_perceptron` (source line 51):
`x = np.arange(len(losses))`, `y = losses`, `mode='lines'`, `name = label`. -/
def trainingCurveTrace (losses : List ℝ) (label : String) : ScatterLine :=
  ⟨(List.range losses.length).map (fun (i : ℕ) => (i : ℝ)), losses, "lines", label⟩

/-- A plotly trace of the comparison figure (source lines 112–130): a scatter
of data points with a per-point color vector, a means marker layer, or an
ellipse curve. -/
inductive FigTrace : Type
  | scatterPts (pts : List (ℝ × ℝ)) (color : List ℝ) : FigTrace
  | meansPts (pts : List (ℝ × ℝ)) : FigTrace
  | ellipseCurve (pts : List (ℝ × ℝ)) : FigTrace

/-- A trace placed on the subplot grid (`row=..., col=...` of `add_trace`). -/
structure Placed where
  tr : FigTrace
  row : ℕ
  col : ℕ

/-- One iteration `i` of the ellipse-overlay loop (source lines 127–130):
reads `gnb.mu_[i]`, `gnb.vars_[i]`, `lda.mu_[i]`; a numpy out-of-range access
raises, modelled as `none`. On success it adds the Gaussian-naive-Bayes
ellipse (covariance `np.diag(vars_[i])`) to panel (1,1) and the LDA ellipse
(shared covariance) to panel (1,2). -/
def overlayStep (gnbMu gnbVars ldaMu : List (ℝ × ℝ)) (ldaCov : Mat2) (i : ℕ) :
    Option (List Placed) :=
  match gnbMu[i]?, gnbVars[i]?, ldaMu[i]? with
  | some mg, some vg, some ml =>
      some [⟨.ellipseCurve (get_ellipse mg (diagM vg)), 1, 1⟩,
            ⟨.ellipseCurve (get_ellipse ml ldaCov), 1, 2⟩]
  | _, _, _ => none

/-- The fixed `for i in range(3)` ellipse-overlay loop (source lines 127–130),
run for `i = 0, 1, 2` in order; fails at the first out-of-range access. -/
def ellipseOverlay (gnbMu gnbVars ldaMu : List (ℝ × ℝ)) (ldaCov : Mat2) :
    Option (List Placed) := do
  let t0 ← overlayStep gnbMu gnbVars ldaMu ldaCov 0
  let t1 ← overlayStep gnbMu gnbVars ldaMu ldaCov 1
  let t2 ← overlayStep gnbMu gnbVars ldaMu ldaCov 2
  pure (t0 ++ t1 ++ t2)

/-- The figure built by one iteration of `compare_gaussian_classifiers`
(source lines 109–130): data-point scatters colored by the true labels `y` in
both panels, Gaussian-naive-Bayes means in panel (1,1), LDA means in panel
(1,2), then the ellipse overlay. The predictions `gnbPred`, `ldaPred` are
computed (for the accuracy values) but enter no trace of the figure. -/
def comparisonFigure (X : List (ℝ × ℝ)) (y : List ℝ)
    (gnbMu gnbVars ldaMu : List (ℝ × ℝ)) (ldaCov : Mat2)
    (gnbPred ldaPred : List ℝ) : Option (List Placed) :=
  (ellipseOverlay gnbMu gnbVars ldaMu ldaCov).map (fun ov =>
    [⟨.scatterPts X y, 1, 1⟩, ⟨.scatterPts X y, 1, 2⟩,
     ⟨.meansPts gnbMu, 1, 1⟩, ⟨.meansPts ldaMu, 1, 2⟩] ++ ov)

/-- `astype(int)` on a real scalar: numpy float-to-int conversion truncates
toward zero. -/
def toIntTrunc (r : ℝ) : ℤ := if 0 ≤ r then ⌊r⌋ else ⌈r⌉

/-- The first two columns of an `(n, 3)` data array (`data[:, :2]`, also
`data[:, :-1]`). -/
def firstTwoCols (data : List (ℝ × ℝ × ℝ)) : List (ℝ × ℝ) :=
  data.map (fun r => (r.1, r.2.1))

/-- The last column of an `(n, 3)` data array (`data[:, 2]`, also
`data[:, -1]`). -/
def thirdCol (data : List (ℝ × ℝ × ℝ)) : List ℝ :=
  data.map (fun r => r.2.2)

/-- `load_dataset` (source lines 24–25): returns
`data[:, :2], data[:, 2].astype(int)` — features and the label column
truncated to integers. -/
def load_dataset (data : List (ℝ × ℝ × ℝ)) : List (ℝ × ℝ) × List ℤ :=
  (firstTwoCols data, (thirdCol data).map toIntTrunc)

/-- The data split of `run_perceptron` (source lines 36–38):
`X = data[:, :-1]; y = data[:, -1]` — the raw real-valued last column, with no
integer cast. -/
def perceptronXY (data : List (ℝ × ℝ × ℝ)) : List (ℝ × ℝ) × List ℝ :=
  (firstTwoCols data, thirdCol data)

/-- The data split of `compare_gaussian_classifiers` (source lines 90–92):
`X = data[:, :-1]; y = data[:, -1]` — the raw real-valued last column, with no
integer cast. -/
def compareXY (data : List (ℝ × ℝ × ℝ)) : List (ℝ × ℝ) × List ℝ :=
  (firstTwoCols data, thirdCol data)

end

section EigenLemmas

lemma disc_nonneg (c : Mat2) : 0 ≤ disc c := by
  unfold disc; positivity

lemma sqrt_disc_sq (c : Mat2) : Real.sqrt (disc c) ^ 2 = disc c :=
  Real.sq_sqrt (disc_nonneg c)

lemma l2Of_le_l1Of (c : Mat2) : l2Of c ≤ l1Of c := by
  unfold l1Of l2Of
  have h := Real.sqrt_nonneg (disc c)
  linarith

lemma sqrt_disc_sq_expand (c : Mat2) :
    Real.sqrt (disc c) ^ 2 = (c.m00 - c.m11) ^ 2 + 4 * c.m10 ^ 2 := by
  rw [sqrt_disc_sq]; rfl

lemma charPoly_l1 (c : Mat2) (hsym : c.m10 = c.m01) : charPoly c (l1Of c) = 0 := by
  have hs := sqrt_disc_sq_expand c
  unfold charPoly l1Of
  linear_combination (1 / 4) * hs + c.m10 * hsym

lemma charPoly_l2 (c : Mat2) (hsym : c.m10 = c.m01) : charPoly c (l2Of c) = 0 := by
  have hs := sqrt_disc_sq_expand c
  unfold charPoly l2Of
  linear_combination (1 / 4) * hs + c.m10 * hsym

lemma charPoly_factor (c : Mat2) (hsym : c.m10 = c.m01) (x : ℝ) :
    charPoly c x = (x - l1Of c) * (x - l2Of c) := by
  have hs := sqrt_disc_sq_expand c
  unfold charPoly l1Of l2Of
  linear_combination (1 / 4) * hs + c.m10 * hsym

lemma charPoly_root_le_l1 (c : Mat2) (hsym : c.m10 = c.m01) (x : ℝ)
    (hx : charPoly c x = 0) : x ≤ l1Of c := by
  rw [charPoly_factor c hsym x] at hx
  rcases mul_eq_zero.mp hx with h | h
  · have : x = l1Of c := by linarith
    exact this.le
  · have : x = l2Of c := by linarith
    exact this.le.trans (l2Of_le_l1Of c)

end EigenLemmas

section Helpers

lemma runCallbacks_acc {E A B G D : Type} (lossFn : E → A → B → ℝ) (X : A) (y : B)
    (invs : List (E × G × D)) (acc : List ℝ) :
    runCallbacks lossFn X y invs acc = acc ++ invs.map (fun inv => lossFn inv.1 X y) := by
  induction invs generalizing acc with
  | nil => simp [runCallbacks]
  | cons hd tl ih =>
      obtain ⟨e, xi, yi⟩ := hd
      simp [runCallbacks, loss_callback, ih]

lemma exists_three_prefix {α : Type} (l : List α) (h : 3 ≤ l.length) :
    ∃ a b c rest, l = a :: b :: c :: rest := by
  rcases l with _ | ⟨a, l⟩
  · simp at h
  rcases l with _ | ⟨b, l⟩
  · simp at h
  rcases l with _ | ⟨c, l⟩
  · simp at h
  · exact ⟨a, b, c, l, rfl⟩

end Helpers

/-- C1: for a symmetric 2×2 covariance, `get_ellipse` computes its rotation
angle as `atan2(l1 - cov[0,0], cov[0,1])` when the off-diagonal entry is
non-zero, and as `π/2` when `cov[0,0] < cov[1,1]` else `0` when the
off-diagonal entry is zero; here `l1` is the larger of the two eigenvalues of
`cov` (a root of the characteristic polynomial that dominates every root). -/
theorem get_ellipse_theta_spec (c : Mat2) (hsym : c.m10 = c.m01) :
    (c.m01 ≠ 0 → thetaOf c = atan2 (l1Of c - c.m00) c.m01) ∧
    (c.m01 = 0 → c.m00 < c.m11 → thetaOf c = Real.pi / 2) ∧
    (c.m01 = 0 → ¬c.m00 < c.m11 → thetaOf c = 0) ∧
    charPoly c (l1Of c) = 0 ∧
    charPoly c (l2Of c) = 0 ∧
    l2Of c ≤ l1Of c ∧
    (∀ x, charPoly c x = 0 → x ≤ l1Of c) := by
  refine ⟨?_, ?_, ?_, charPoly_l1 c hsym, charPoly_l2 c hsym, l2Of_le_l1Of c,
    charPoly_root_le_l1 c hsym⟩
  · intro h; simp [thetaOf, h]
  · intro h0 hlt; simp [thetaOf, h0, hlt]
  · intro h0 hlt; simp [thetaOf, h0, hlt]

/-- Witness for C1 at the concrete symmetric covariance `[[1, 2], [2, 3]]`. -/
theorem get_ellipse_theta_spec_witness :
    (Mat2.mk 1 2 2 3).m10 = (Mat2.mk 1 2 2 3).m01 ∧
    (((Mat2.mk 1 2 2 3).m01 ≠ 0 →
        thetaOf (Mat2.mk 1 2 2 3) =
          atan2 (l1Of (Mat2.mk 1 2 2 3) - (Mat2.mk 1 2 2 3).m00) (Mat2.mk 1 2 2 3).m01) ∧
      ((Mat2.mk 1 2 2 3).m01 = 0 → (Mat2.mk 1 2 2 3).m00 < (Mat2.mk 1 2 2 3).m11 →
        thetaOf (Mat2.mk 1 2 2 3) = Real.pi / 2) ∧
      ((Mat2.mk 1 2 2 3).m01 = 0 → ¬(Mat2.mk 1 2 2 3).m00 < (Mat2.mk 1 2 2 3).m11 →
        thetaOf (Mat2.mk 1 2 2 3) = 0) ∧
      charPoly (Mat2.mk 1 2 2 3) (l1Of (Mat2.mk 1 2 2 3)) = 0 ∧
      charPoly (Mat2.mk 1 2 2 3) (l2Of (Mat2.mk 1 2 2 3)) = 0 ∧
      l2Of (Mat2.mk 1 2 2 3) ≤ l1Of (Mat2.mk 1 2 2 3) ∧
      (∀ x, charPoly (Mat2.mk 1 2 2 3) x = 0 → x ≤ l1Of (Mat2.mk 1 2 2 3))) :=
  ⟨rfl, get_ellipse_theta_spec (Mat2.mk 1 2 2 3) rfl⟩

/-- C4: translation invariance — the ellipse for a shifted mean is, point by
point, the shift of the ellipse for the original mean by the same vector. -/
theorem get_ellipse_translation (m d : ℝ × ℝ) (c : Mat2) :
    get_ellipse (m.1 + d.1, m.2 + d.2) c =
      (get_ellipse m c).map (fun p => (p.1 + d.1, p.2 + d.2)) := by
  unfold get_ellipse
  rw [List.map_map]
  congr 1
  funext i
  simp only [Function.comp, ellipsePoint, Prod.mk.injEq]
  constructor <;> ring

/-- C5: the loss-tracking callback invoked `k` times produces a trace of
length exactly `k`, in invocation order, and each appended value is the
estimator's loss over the entire fixed training set `(X, y)` — the per-sample
arguments of each invocation do not enter the trace. -/
theorem loss_callback_trace {E A B G D : Type} (lossFn : E → A → B → ℝ) (X : A) (y : B)
    (invs : List (E × G × D)) :
    runCallbacks lossFn X y invs [] = invs.map (fun inv => lossFn inv.1 X y) ∧
    (runCallbacks lossFn X y invs []).length = invs.length := by
  have h := runCallbacks_acc lossFn X y invs []
  simp only [List.nil_append] at h
  exact ⟨h, by rw [h]; simp⟩

/-- C9: both pipelines split the raw array themselves — their label vector is
the raw real-valued last column, while `load_dataset` truncates it to
integers; on the data row `(0, 0, 3/2)` the two disagree. -/
theorem pipelines_use_raw_labels (data : List (ℝ × ℝ × ℝ)) :
    (perceptronXY data).2 = thirdCol data ∧
    (compareXY data).2 = thirdCol data ∧
    (load_dataset data).2 = (thirdCol data).map toIntTrunc ∧
    (perceptronXY [((0 : ℝ), (0 : ℝ), (3 / 2 : ℝ))]).2 ≠
      ((load_dataset [((0 : ℝ), (0 : ℝ), (3 / 2 : ℝ))]).2).map (fun z => (z : ℝ)) := by
  refine ⟨rfl, rfl, rfl, ?_⟩
  simp only [perceptronXY, load_dataset, thirdCol, firstTwoCols, toIntTrunc,
    List.map_cons, List.map_nil, ne_eq, List.cons.injEq, and_true]
  intro hcon
  have hfloor : ⌊(3 / 2 : ℝ)⌋ = 1 := by
    rw [Int.floor_eq_iff]
    norm_num
  rw [if_pos (by norm_num)] at hcon
  rw [hfloor] at hcon
  norm_num at hcon

/-- C2: `get_ellipse` returns exactly 100 points; the parameter ranges over
100 linearly spaced values from `0` to `2π`, both endpoints included, and the
i-th point is the mean plus the rotated axis-scaled point at `t_i`, with `l1`
and `l2` the larger and smaller eigenvalues of the covariance. -/
theorem get_ellipse_sampling (mu : ℝ × ℝ) (c : Mat2) (hsym : c.m10 = c.m01)
    (i : ℕ) (hi : i < 100) :
    (get_ellipse mu c).length = 100 ∧
    linspace100 0 = 0 ∧
    linspace100 99 = 2 * Real.pi ∧
    (∀ j, linspace100 (j + 1) - linspace100 j = 2 * Real.pi / 99) ∧
    l2Of c ≤ l1Of c ∧
    charPoly c (l1Of c) = 0 ∧
    charPoly c (l2Of c) = 0 ∧
    (get_ellipse mu c).get
        ⟨i, by simpa only [get_ellipse, List.length_map, List.length_range] using hi⟩ =
      (mu.1 + (l1Of c * Real.cos (thetaOf c) * Real.cos (linspace100 i)
        - l2Of c * Real.sin (thetaOf c) * Real.sin (linspace100 i)),
       mu.2 + (l1Of c * Real.sin (thetaOf c) * Real.cos (linspace100 i)
        + l2Of c * Real.cos (thetaOf c) * Real.sin (linspace100 i))) := by
  refine ⟨by simp [get_ellipse], by simp [linspace100],
    by simp only [linspace100]; norm_num,
    fun j => by simp only [linspace100]; push_cast; ring,
    l2Of_le_l1Of c, charPoly_l1 c hsym, charPoly_l2 c hsym, ?_⟩
  simp only [get_ellipse, List.get_eq_getElem, List.getElem_map, List.getElem_range,
    ellipsePoint]

/-- Witness for C2 at the concrete mean `(0, 0)`, identity covariance and
index `0`. -/
theorem get_ellipse_sampling_witness :
    (Mat2.mk 1 0 0 1).m10 = (Mat2.mk 1 0 0 1).m01 ∧ 0 < 100 ∧
    ((get_ellipse (0, 0) (Mat2.mk 1 0 0 1)).length = 100 ∧
      linspace100 0 = 0 ∧
      linspace100 99 = 2 * Real.pi ∧
      (∀ j, linspace100 (j + 1) - linspace100 j = 2 * Real.pi / 99) ∧
      l2Of (Mat2.mk 1 0 0 1) ≤ l1Of (Mat2.mk 1 0 0 1) ∧
      charPoly (Mat2.mk 1 0 0 1) (l1Of (Mat2.mk 1 0 0 1)) = 0 ∧
      charPoly (Mat2.mk 1 0 0 1) (l2Of (Mat2.mk 1 0 0 1)) = 0 ∧
      (get_ellipse (0, 0) (Mat2.mk 1 0 0 1)).get
          ⟨0, by simp only [get_ellipse, List.length_map, List.length_range]; omega⟩ =
        (((0 : ℝ), (0 : ℝ)).1 +
            (l1Of (Mat2.mk 1 0 0 1) * Real.cos (thetaOf (Mat2.mk 1 0 0 1)) *
                Real.cos (linspace100 0)
              - l2Of (Mat2.mk 1 0 0 1) * Real.sin (thetaOf (Mat2.mk 1 0 0 1)) *
                Real.sin (linspace100 0)),
         ((0 : ℝ), (0 : ℝ)).2 +
            (l1Of (Mat2.mk 1 0 0 1) * Real.sin (thetaOf (Mat2.mk 1 0 0 1)) *
                Real.cos (linspace100 0)
              + l2Of (Mat2.mk 1 0 0 1) * Real.cos (thetaOf (Mat2.mk 1 0 0 1)) *
                Real.sin (linspace100 0)))) :=
  ⟨rfl, by norm_num, get_ellipse_sampling (0, 0) (Mat2.mk 1 0 0 1) rfl 0 (by norm_num)⟩

/-- C3 counterexample: for the circle covariance `diag(4, 4)` centered at the
origin, the first output point is `(4, 0)`, at distance `4` from the mean,
while the square root of the shared eigenvalue is `√4 = 2` — so the points do
not lie at distance `√eigenvalue` as claimed. -/
theorem get_ellipse_circle_sqrt_cex :
    (ellipsePoint (0, 0) (diagM (4, 4)) (linspace100 0) ∈
        get_ellipse (0, 0) (diagM (4, 4))) ∧
    ellipsePoint (0, 0) (diagM (4, 4)) (linspace100 0) = (4, 0) ∧
    l1Of (diagM (4, 4)) = 4 ∧
    l2Of (diagM (4, 4)) = 4 ∧
    Real.sqrt (((4 : ℝ) - 0) ^ 2 + ((0 : ℝ) - 0) ^ 2) ≠
      Real.sqrt (l1Of (diagM (4, 4))) := by
  refine ⟨List.mem_map_of_mem _ (List.mem_range.mpr (by norm_num)), ?_, ?_, ?_, ?_⟩
  · simp [ellipsePoint, linspace100, thetaOf, l1Of, l2Of, disc, diagM]
  · simp [l1Of, disc, diagM]
  · simp [l2Of, disc, diagM]
  · rw [show ((4 : ℝ) - 0) ^ 2 + ((0 : ℝ) - 0) ^ 2 = 4 ^ 2 by norm_num,
      Real.sqrt_sq (by norm_num), show l1Of (diagM (4, 4)) = 4 by simp [l1Of, disc, diagM],
      show (4 : ℝ) = 2 ^ 2 by norm_num, Real.sqrt_sq (by norm_num)]
    norm_num

/-- C3 amended: for a diagonal covariance with equal non-negative diagonal
entries, all 100 points of `get_ellipse` lie at equal distance from the mean,
that distance being the shared eigenvalue itself (not its square root),
whatever the rotation angle evaluates to. -/
theorem get_ellipse_circle_radius (mu : ℝ × ℝ) (v : ℝ) (hv : 0 ≤ v) (p : ℝ × ℝ)
    (hp : p ∈ get_ellipse mu (diagM (v, v))) :
    l1Of (diagM (v, v)) = v ∧
    l2Of (diagM (v, v)) = v ∧
    Real.sqrt ((p.1 - mu.1) ^ 2 + (p.2 - mu.2) ^ 2) = v := by
  have hl1 : l1Of (diagM (v, v)) = v := by simp [l1Of, disc, diagM]
  have hl2 : l2Of (diagM (v, v)) = v := by simp [l2Of, disc, diagM]
  refine ⟨hl1, hl2, ?_⟩
  simp only [get_ellipse, List.mem_map, List.mem_range] at hp
  obtain ⟨i, hi, rfl⟩ := hp
  set th := thetaOf (diagM (v, v))
  set t := linspace100 i
  have hth := Real.sin_sq_add_cos_sq th
  have ht := Real.sin_sq_add_cos_sq t
  have hS : ((ellipsePoint mu (diagM (v, v)) t).1 - mu.1) ^ 2 +
      ((ellipsePoint mu (diagM (v, v)) t).2 - mu.2) ^ 2 = v ^ 2 := by
    simp only [ellipsePoint, hl1, hl2]
    linear_combination (v ^ 2 * (Real.sin t ^ 2 + Real.cos t ^ 2)) * hth + v ^ 2 * ht
  rw [hS, Real.sqrt_sq hv]

/-- Witness for the amended C3 at the mean `(1, 2)` and covariance
`diag(4, 4)`, on the first output point. -/
theorem get_ellipse_circle_radius_witness :
    (0 : ℝ) ≤ 4 ∧
    (ellipsePoint (1, 2) (diagM (4, 4)) (linspace100 0) ∈
        get_ellipse (1, 2) (diagM (4, 4))) ∧
    (l1Of (diagM (4, 4)) = 4 ∧
      l2Of (diagM (4, 4)) = 4 ∧
      Real.sqrt
          (((ellipsePoint (1, 2) (diagM (4, 4)) (linspace100 0)).1 - ((1 : ℝ), (2 : ℝ)).1) ^ 2 +
            ((ellipsePoint (1, 2) (diagM (4, 4)) (linspace100 0)).2 - ((1 : ℝ), (2 : ℝ)).2) ^ 2) =
        4) :=
  ⟨by norm_num, List.mem_map_of_mem _ (List.mem_range.mpr (by norm_num)),
    get_ellipse_circle_radius (1, 2) 4 (by norm_num) _
      (List.mem_map_of_mem _ (List.mem_range.mpr (by norm_num)))⟩

/-- C6: when the fitted models expose `K ≠ 3` classes, the fixed 3-iteration
ellipse overlay either fails with an out-of-range access (`K < 3`) or renders
only 3 ellipses per panel, fewer than the `K` classes present (`K > 3`). -/
theorem ellipseOverlay_class_count (gnbMu gnbVars ldaMu : List (ℝ × ℝ)) (ldaCov : Mat2)
    (K : ℕ) (h1 : gnbMu.length = K) (h2 : gnbVars.length = K) (h3 : ldaMu.length = K)
    (hK : K ≠ 3) :
    (K < 3 → ellipseOverlay gnbMu gnbVars ldaMu ldaCov = none) ∧
    (3 < K → ∃ ps, ellipseOverlay gnbMu gnbVars ldaMu ldaCov = some ps ∧
      (ps.filter (fun p => p.col == 1)).length = 3 ∧
      (ps.filter (fun p => p.col == 2)).length = 3 ∧ 3 < K) := by
  constructor
  · intro hlt
    interval_cases K
    · simp [ellipseOverlay, overlayStep, List.length_eq_zero.mp h1]
    · obtain ⟨a, rfl⟩ : ∃ a, gnbMu = [a] := List.length_eq_one.mp h1
      simp [ellipseOverlay, overlayStep]
    · obtain ⟨a, b, rfl⟩ : ∃ a b, gnbMu = [a, b] := List.length_eq_two.mp h1
      simp [ellipseOverlay, overlayStep]
  · intro hgt
    obtain ⟨a0, a1, a2, ar, rfl⟩ := exists_three_prefix gnbMu (by omega)
    obtain ⟨b0, b1, b2, br, rfl⟩ := exists_three_prefix gnbVars (by omega)
    obtain ⟨c0, c1, c2, cr, rfl⟩ := exists_three_prefix ldaMu (by omega)
    refine ⟨[⟨.ellipseCurve (get_ellipse a0 (diagM b0)), 1, 1⟩,
             ⟨.ellipseCurve (get_ellipse c0 ldaCov), 1, 2⟩,
             ⟨.ellipseCurve (get_ellipse a1 (diagM b1)), 1, 1⟩,
             ⟨.ellipseCurve (get_ellipse c1 ldaCov), 1, 2⟩,
             ⟨.ellipseCurve (get_ellipse a2 (diagM b2)), 1, 1⟩,
             ⟨.ellipseCurve (get_ellipse c2 ldaCov), 1, 2⟩], ?_, rfl, rfl, hgt⟩
    simp [ellipseOverlay, overlayStep]

/-- Witness for C6 with two classes: the overlay loop hits an out-of-range
access. -/
theorem ellipseOverlay_class_count_witness :
    ([((0 : ℝ), (0 : ℝ)), ((1 : ℝ), (1 : ℝ))]).length = 2 ∧
    ([((2 : ℝ), (2 : ℝ)), ((3 : ℝ), (3 : ℝ))]).length = 2 ∧
    ([((4 : ℝ), (4 : ℝ)), ((5 : ℝ), (5 : ℝ))]).length = 2 ∧
    (2 : ℕ) ≠ 3 ∧
    ((2 < 3 → ellipseOverlay [((0 : ℝ), (0 : ℝ)), ((1 : ℝ), (1 : ℝ))]
        [((2 : ℝ), (2 : ℝ)), ((3 : ℝ), (3 : ℝ))]
        [((4 : ℝ), (4 : ℝ)), ((5 : ℝ), (5 : ℝ))] (Mat2.mk 1 0 0 1) = none) ∧
     (3 < 2 → ∃ ps, ellipseOverlay [((0 : ℝ), (0 : ℝ)), ((1 : ℝ), (1 : ℝ))]
        [((2 : ℝ), (2 : ℝ)), ((3 : ℝ), (3 : ℝ))]
        [((4 : ℝ), (4 : ℝ)), ((5 : ℝ), (5 : ℝ))] (Mat2.mk 1 0 0 1) = some ps ∧
        (ps.filter (fun p => p.col == 1)).length = 3 ∧
        (ps.filter (fun p => p.col == 2)).length = 3 ∧ 3 < 2)) :=
  ⟨rfl, rfl, rfl, by norm_num,
    ellipseOverlay_class_count [((0 : ℝ), (0 : ℝ)), ((1 : ℝ), (1 : ℝ))]
      [((2 : ℝ), (2 : ℝ)), ((3 : ℝ), (3 : ℝ))]
      [((4 : ℝ), (4 : ℝ)), ((5 : ℝ), (5 : ℝ))] (Mat2.mk 1 0 0 1) 2 rfl rfl rfl
      (by norm_num)⟩

/-- C7: the comparison figure has one row with two side-by-side panels; the
Gaussian-naive-Bayes means and per-class diagonal-covariance ellipses go to
the left panel (col 1) and the LDA means and shared-covariance ellipses to the
right panel (col 2); both panels contain a scatter of the same points colored
by the true label vector `y`, and the figure does not depend on the
prediction vectors. -/
theorem comparisonFigure_layout (X : List (ℝ × ℝ)) (y : List ℝ)
    (gnbMu gnbVars ldaMu : List (ℝ × ℝ)) (ldaCov : Mat2) (gnbPred ldaPred : List ℝ)
    (h1 : gnbMu.length = 3) (h2 : gnbVars.length = 3) (h3 : ldaMu.length = 3) :
    ∃ ps, comparisonFigure X y gnbMu gnbVars ldaMu ldaCov gnbPred ldaPred = some ps ∧
      ps[0]? = some ⟨.scatterPts X y, 1, 1⟩ ∧
      ps[1]? = some ⟨.scatterPts X y, 1, 2⟩ ∧
      ps[2]? = some ⟨.meansPts gnbMu, 1, 1⟩ ∧
      ps[3]? = some ⟨.meansPts ldaMu, 1, 2⟩ ∧
      ps[4]? = some ⟨.ellipseCurve (get_ellipse (gnbMu.get ⟨0, by omega⟩)
        (diagM (gnbVars.get ⟨0, by omega⟩))), 1, 1⟩ ∧
      ps[5]? = some ⟨.ellipseCurve (get_ellipse (ldaMu.get ⟨0, by omega⟩) ldaCov), 1, 2⟩ ∧
      (∀ p, p ∈ ps → p.row = 1 ∧ (p.col = 1 ∨ p.col = 2)) ∧
      (∀ q1 q2 : List ℝ, comparisonFigure X y gnbMu gnbVars ldaMu ldaCov q1 q2 = some ps) := by
  obtain ⟨a0, a1, a2, rfl⟩ := List.length_eq_three.mp h1
  obtain ⟨b0, b1, b2, rfl⟩ := List.length_eq_three.mp h2
  obtain ⟨c0, c1, c2, rfl⟩ := List.length_eq_three.mp h3
  refine ⟨[⟨.scatterPts X y, 1, 1⟩, ⟨.scatterPts X y, 1, 2⟩,
           ⟨.meansPts [a0, a1, a2], 1, 1⟩, ⟨.meansPts [c0, c1, c2], 1, 2⟩,
           ⟨.ellipseCurve (get_ellipse a0 (diagM b0)), 1, 1⟩,
           ⟨.ellipseCurve (get_ellipse c0 ldaCov), 1, 2⟩,
           ⟨.ellipseCurve (get_ellipse a1 (diagM b1)), 1, 1⟩,
           ⟨.ellipseCurve (get_ellipse c1 ldaCov), 1, 2⟩,
           ⟨.ellipseCurve (get_ellipse a2 (diagM b2)), 1, 1⟩,
           ⟨.ellipseCurve (get_ellipse c2 ldaCov), 1, 2⟩],
    ?_, rfl, rfl, rfl, rfl, rfl, rfl, ?_, ?_⟩
  · simp [comparisonFigure, ellipseOverlay, overlayStep]
  · intro p hp
    simp only [List.mem_cons, List.not_mem_nil, or_false] at hp
    rcases hp with rfl | rfl | rfl | rfl | rfl | rfl | rfl | rfl | rfl | rfl <;> simp
  · intro q1 q2
    simp [comparisonFigure, ellipseOverlay, overlayStep]

/-- Witness for C7 on a concrete three-class model. -/
theorem comparisonFigure_layout_witness :
    ([((0 : ℝ), (0 : ℝ)), ((1 : ℝ), (1 : ℝ)), ((2 : ℝ), (2 : ℝ))]).length = 3 ∧
    ([((1 : ℝ), (1 : ℝ)), ((1 : ℝ), (1 : ℝ)), ((1 : ℝ), (1 : ℝ))]).length = 3 ∧
    ([((3 : ℝ), (3 : ℝ)), ((4 : ℝ), (4 : ℝ)), ((5 : ℝ), (5 : ℝ))]).length = 3 ∧
    (∃ ps, comparisonFigure [] [] [((0 : ℝ), (0 : ℝ)), ((1 : ℝ), (1 : ℝ)), ((2 : ℝ), (2 : ℝ))]
        [((1 : ℝ), (1 : ℝ)), ((1 : ℝ), (1 : ℝ)), ((1 : ℝ), (1 : ℝ))]
        [((3 : ℝ), (3 : ℝ)), ((4 : ℝ), (4 : ℝ)), ((5 : ℝ), (5 : ℝ))]
        (Mat2.mk 1 0 0 1) [] [] = some ps ∧
      ps[0]? = some ⟨.scatterPts [] [], 1, 1⟩ ∧
      ps[1]? = some ⟨.scatterPts [] [], 1, 2⟩ ∧
      ps[2]? = some ⟨.meansPts [((0 : ℝ), (0 : ℝ)), ((1 : ℝ), (1 : ℝ)), ((2 : ℝ), (2 : ℝ))], 1, 1⟩ ∧
      ps[3]? = some ⟨.meansPts [((3 : ℝ), (3 : ℝ)), ((4 : ℝ), (4 : ℝ)), ((5 : ℝ), (5 : ℝ))], 1, 2⟩ ∧
      ps[4]? = some ⟨.ellipseCurve (get_ellipse
        (([((0 : ℝ), (0 : ℝ)), ((1 : ℝ), (1 : ℝ)), ((2 : ℝ), (2 : ℝ))]).get ⟨0, by simp⟩)
        (diagM (([((1 : ℝ), (1 : ℝ)), ((1 : ℝ), (1 : ℝ)), ((1 : ℝ), (1 : ℝ))]).get
          ⟨0, by simp⟩))), 1, 1⟩ ∧
      ps[5]? = some ⟨.ellipseCurve (get_ellipse
        (([((3 : ℝ), (3 : ℝ)), ((4 : ℝ), (4 : ℝ)), ((5 : ℝ), (5 : ℝ))]).get ⟨0, by simp⟩)
        (Mat2.mk 1 0 0 1)), 1, 2⟩ ∧
      (∀ p, p ∈ ps → p.row = 1 ∧ (p.col = 1 ∨ p.col = 2)) ∧
      (∀ q1 q2 : List ℝ, comparisonFigure [] []
        [((0 : ℝ), (0 : ℝ)), ((1 : ℝ), (1 : ℝ)), ((2 : ℝ), (2 : ℝ))]
        [((1 : ℝ), (1 : ℝ)), ((1 : ℝ), (1 : ℝ)), ((1 : ℝ), (1 : ℝ))]
        [((3 : ℝ), (3 : ℝ)), ((4 : ℝ), (4 : ℝ)), ((5 : ℝ), (5 : ℝ))]
        (Mat2.mk 1 0 0 1) q1 q2 = some ps)) :=
  ⟨rfl, rfl, rfl,
    comparisonFigure_layout [] [] [((0 : ℝ), (0 : ℝ)), ((1 : ℝ), (1 : ℝ)), ((2 : ℝ), (2 : ℝ))]
      [((1 : ℝ), (1 : ℝ)), ((1 : ℝ), (1 : ℝ)), ((1 : ℝ), (1 : ℝ))]
      [((3 : ℝ), (3 : ℝ)), ((4 : ℝ), (4 : ℝ)), ((5 : ℝ), (5 : ℝ))]
      (Mat2.mk 1 0 0 1) [] [] rfl rfl rfl⟩

/-- C8: the training-curve trace renders exactly `len(losses)` points as one
connected line (`mode='lines'`), x-values being the iteration indices
`0 .. len(losses)-1` in order and y-values the trace values in order. -/
theorem trainingCurve_points (losses : List ℝ) (label : String) (i : ℕ)
    (hi : i < losses.length) :
    (trainingCurveTrace losses label).xs.length = losses.length ∧
    (trainingCurveTrace losses label).ys = losses ∧
    (trainingCurveTrace losses label).mode = "lines" ∧
    (trainingCurveTrace losses label).xs.get
        ⟨i, by simpa only [trainingCurveTrace, List.length_map, List.length_range]
          using hi⟩ = (i : ℝ) := by
  refine ⟨by simp only [trainingCurveTrace, List.length_map, List.length_range], rfl, rfl, ?_⟩
  simp only [trainingCurveTrace, List.get_eq_getElem, List.getElem_map, List.getElem_range]

/-- Witness for C8 at the concrete trace `[5, 7]`, index `1`. -/
theorem trainingCurve_points_witness :
    1 < ([(5 : ℝ), 7]).length ∧
    ((trainingCurveTrace [(5 : ℝ), 7] "d").xs.length = ([(5 : ℝ), 7]).length ∧
      (trainingCurveTrace [(5 : ℝ), 7] "d").ys = [(5 : ℝ), 7] ∧
      (trainingCurveTrace [(5 : ℝ), 7] "d").mode = "lines" ∧
      (trainingCurveTrace [(5 : ℝ), 7] "d").xs.get
          ⟨1, by simp only [trainingCurveTrace, List.length_map, List.length_range,
            List.length_cons, List.length_nil]; omega⟩ = ((1 : ℕ) : ℝ)) :=
  ⟨by simp, trainingCurve_points [(5 : ℝ), 7] "d" 1 (by simp)⟩

/-- C10: every Gaussian-naive-Bayes ellipse uses the covariance
`np.diag(vars)`, whose off-diagonal entry is exactly zero, so the zero-branch
of the angle computation is taken and the rotation angle is `π/2` or `0`. -/
theorem gnb_ellipse_axis_aligned (v : ℝ × ℝ) :
    (diagM v).m01 = 0 ∧
    thetaOf (diagM v) = (if v.1 < v.2 then Real.pi / 2 else 0) ∧
    (thetaOf (diagM v) = 0 ∨ thetaOf (diagM v) = Real.pi / 2) := by
  refine ⟨rfl, ?_, ?_⟩
  · simp [thetaOf, diagM]
  · by_cases h : v.1 < v.2
    · right; simp [thetaOf, diagM, h]
    · left; simp [thetaOf, diagM, h]
